import Mathlib

/-!
# Verification of the slingshot-api data-synchronization core

Shallow embedding, in Lean 4, of the parts of the `slingshot-api` repository
that the specification's claims are about:

* the bracket-order reconciler (`groupRelatedOrders`, `findRelatedOrders`,
  `createBracketOrderGroup`, `getOrderRole` in `tradeExecutor`),
* the freshness cache (`cacheOrders`, `cachePositions`, `determinePollingMode`,
  `updatePollingState` in `dataCache.js`),
* the adaptive polling collector (`pollDataType`, `checkPollingModeChange`,
  `forcePollingMode` in the data collector), and
* the rate limiter (`rateLimiter.js`).

JavaScript objects are modelled as structures whose fields are `Option`-valued:
`none` plays the role of `undefined` (reading a key that was never written
yields `undefined` in JavaScript, which is exactly `none` here).  JavaScript
truthiness (`0`, `''`, `undefined` are falsy) is modelled explicitly by the
`truthy`/`jsOr` helpers below, because the source relies on `||` fallbacks
everywhere.
-/

namespace Slingshot

/-! ## JavaScript semantics helpers -/

/-- Truthiness of an optional number (`undefined` and `0` are falsy). -/
def truthyN : Option Nat → Bool
  | none => false
  | some n => n != 0

/-- Truthiness of an optional integer price (`undefined` and `0` are falsy). -/
def truthyI : Option Int → Bool
  | none => false
  | some p => p != 0

/-- Truthiness of an optional string (`undefined` and `''` are falsy). -/
def truthyS : Option String → Bool
  | none => false
  | some s => s != ""

/-- JavaScript `a || b` on optional numbers. -/
def jsOrN (a b : Option Nat) : Option Nat :=
  if truthyN a then a else b

/-- JavaScript `a || b` on optional integers. -/
def jsOrI (a b : Option Int) : Option Int :=
  if truthyI a then a else b

/-- JavaScript `a || b` on optional strings. -/
def jsOrS (a b : Option String) : Option String :=
  if truthyS a then a else b

/-- JavaScript `a || b` where `a` is a number and `b` a default (used for
`options.minRequestInterval || 1000` and `roleOrder[aType] || 3`): `0` is
falsy and falls through to the default. -/
def jsOrNat (a : Option Nat) (b : Nat) : Nat :=
  match a with
  | none => b
  | some n => if n = 0 then b else n

/-- `(s || '')` for an optional string: the string itself, or `''`. -/
def jsStrOrEmpty : Option String → String
  | none => ""
  | some s => s

/-- ASCII lowercasing of one character (all strings the source lowercases are
ASCII order types and annotations). -/
def jsCharToLower (c : Char) : Char :=
  if 65 ≤ c.toNat ∧ c.toNat ≤ 90 then Char.ofNat (c.toNat + 32) else c

/-- JavaScript `s.toLowerCase()` (structural implementation, so that concrete
runs of the reconciler can be checked by `decide`). -/
def jsToLower (s : String) : String :=
  String.mk (s.data.map jsCharToLower)

/-- Does `pat` occur at the head of `s`? (helper for substring search). -/
def matchesAt : List Char → List Char → Bool
  | [], _ => true
  | _ :: _, [] => false
  | p :: ps, c :: cs => p == c && matchesAt ps cs

/-- Does `pat` occur anywhere in `s`? (helper for substring search). -/
def hasSubAux (pat : List Char) : List Char → Bool
  | [] => pat.isEmpty
  | c :: cs => matchesAt pat (c :: cs) || hasSubAux pat cs

/-- JavaScript `s.includes(pat)`: substring containment. -/
def jsIncludes (s pat : String) : Bool :=
  hasSubAux pat.data s.data

/-! ## Order records

`COrder` models the order objects flowing through the reconciler and the
cache.  Fields not consulted by any modelled operation (symbol, contract
identifiers, timestamps, ...) are elided. -/

structure COrder where
  id : Option Nat := none
  orderId : Option Nat := none
  action : Option String := none
  orderType : Option String := none
  status : Option String := none
  ordStatus : Option String := none
  text : Option String := none
  price : Option Int := none
  limitPrice : Option Int := none
  stopPrice : Option Int := none
  workingPrice : Option Int := none
  linkedId : Option Nat := none
  parentId : Option Nat := none
  ocoId : Option Nat := none
  orderQty : Option Nat := none
  deriving DecidableEq, Repr

/-- `order.id || order.orderId` — the identity used throughout the grouping
pass. -/
def oid (o : COrder) : Option Nat :=
  jsOrN o.id o.orderId

/-! ## Role inference (`getOrderRole`) -/

inductive Role where
  | entry
  | stop
  | target
  | other
  deriving DecidableEq, Repr

/-- `getOrderRole(order)`: stop / target / entry / other, checked in that
order, from the lowercased order type and free-text annotation. -/
def getOrderRole (o : COrder) : Role :=
  let orderType := jsToLower (jsStrOrEmpty o.orderType)
  let text := jsToLower (jsStrOrEmpty o.text)
  if jsIncludes orderType "stop" || o.stopPrice.isSome ||
      jsIncludes text "stop" || jsIncludes text "sl" ||
      orderType == "stoplimit" then
    Role.stop
  else if (jsIncludes orderType "limit" &&
        (jsIncludes text "profit" || jsIncludes text "target" ||
          jsIncludes text "tp")) ||
      (orderType == "limit" && truthyN o.linkedId && !truthyI o.stopPrice) then
    Role.target
  else if jsIncludes orderType "market" ||
      (jsIncludes orderType "limit" && !truthyN o.linkedId &&
        !truthyI o.stopPrice) then
    Role.entry
  else
    Role.other

/-- The `roleOrder` lookup table `{entry: 0, stop: 1, target: 2, other: 3}`. -/
def roleOrderVal : Role → Nat
  | Role.entry => 0
  | Role.stop => 1
  | Role.target => 2
  | Role.other => 3

/-- The sort key actually used by the comparator: `roleOrder[type] || 3`.
Because `0` is falsy in JavaScript, the `entry` key `0` falls through to the
default `3` — entries do NOT sort first. -/
def sortKey (o : COrder) : Nat :=
  jsOrNat (some (roleOrderVal (getOrderRole o))) 3

/-! ## Relation discovery (`findRelatedOrders`) -/

/-- The pairwise relation test of `findRelatedOrders`: any one of the six
relationship checks suffices.  `m` is the main (seed) order, `o` the other
order being scanned. -/
def isRelated (m o : COrder) : Bool :=
  let mainOrderId := oid m
  let orderId := oid o
  let linkedRelation := o.linkedId == mainOrderId || m.linkedId == orderId
  let ocoRelation := o.ocoId == orderId || o.ocoId == mainOrderId
  let parentChildRelation := o.parentId == mainOrderId || m.parentId == orderId
  let siblingRelation := truthyN o.parentId && truthyN m.parentId &&
    o.parentId == m.parentId
  let sharedLinkedId := truthyN m.linkedId && o.linkedId == m.linkedId
  let linkedBySharedId := truthyN m.linkedId && orderId == m.linkedId
  linkedRelation || ocoRelation || parentChildRelation || siblingRelation ||
    sharedLinkedId || linkedBySharedId

/-- `findRelatedOrders(mainOrder, allOrders)`: the seed order followed by every
other order (scanning the full list, skipping the seed's own id) that passes
the relation test. -/
def findRelatedOrders (m : COrder) (allOrders : List COrder) : List COrder :=
  m :: allOrders.filter (fun o => !(oid o == oid m) && isRelated m o)

/-! ## Bracket group construction (`createBracketOrderGroup`) -/

/-- One sub-record of `bracketDetails`.  The source builds these as object
literals with different key sets: the entry sub-record has
`action`/`qty`/`price`/`orderId`/`status`, the stop-loss and take-profit
sub-records have `price`/`orderId`/`status`/`orderType`.  As in JavaScript,
reading a key the literal did not set yields `undefined`, i.e. `none`. -/
structure SubDetail where
  action : Option String := none
  qty : Option Nat := none
  price : Option Int := none
  orderId : Option Nat := none
  status : Option String := none
  orderType : Option String := none
  deriving DecidableEq, Repr

structure BracketDetails where
  entry : Option SubDetail
  stopLoss : Option SubDetail
  takeProfit : Option SubDetail
  deriving DecidableEq, Repr

/-- `extractOrderPrice(order)`:
`order.price || order.limitPrice || order.stopPrice || order.workingPrice || null`.
A price of `0` is falsy and falls through. -/
def extractOrderPrice (o : COrder) : Option Int :=
  jsOrI (jsOrI (jsOrI (jsOrI o.price o.limitPrice) o.stopPrice) o.workingPrice)
    none

/-- The entry sub-record of `bracketDetails`. -/
def mkEntryDetail (o : COrder) : SubDetail :=
  { action := o.action
    qty := o.orderQty
    price := extractOrderPrice o
    orderId := jsOrN o.orderId o.id
    status := jsOrS o.ordStatus o.status }

/-- The stop-loss / take-profit sub-record of `bracketDetails` (no `action`
or `qty` keys). -/
def mkExitDetail (o : COrder) : SubDetail :=
  { price := extractOrderPrice o
    orderId := jsOrN o.orderId o.id
    status := jsOrS o.ordStatus o.status
    orderType := o.orderType }

/-- An emitted order group.  `base` models the fields spread from the entry
order (bracket) or the standalone order; `members` records the related set
that produced the group — it is not a field of the JavaScript object but is
kept so membership properties can be stated. -/
structure GroupedOrder where
  base : COrder
  orderType : Option String
  isGroup : Bool
  groupSize : Option Nat := none
  bracketDetails : Option BracketDetails := none
  members : List COrder
  deriving DecidableEq, Repr

/-- An all-`undefined` order, used only for the (unreachable) empty-list case
of `createBracketOrderGroup`, which the source only calls on lists of length
≥ 2. -/
def emptyCOrder : COrder := {}

/-- `createBracketOrderGroup(relatedOrders)`: sort members by the comparator
`(roleOrder[role(a)] || 3) - (roleOrder[role(b)] || 3)` (a stable sort, as
guaranteed for `Array.prototype.sort`), pick the entry-role member (falling
back to the first sorted member), the stop-role member and the target-role
member, and assemble the bracket object. -/
def createBracketOrderGroup (relatedOrders : List COrder) : GroupedOrder :=
  let sortedOrders := List.insertionSort
    (fun a b => sortKey a ≤ sortKey b) relatedOrders
  let entryOrder : Option COrder :=
    match sortedOrders.find? (fun o => getOrderRole o == Role.entry) with
    | some e => some e
    | none => sortedOrders.head?
  let stopOrder := sortedOrders.find? (fun o => getOrderRole o == Role.stop)
  let targetOrder := sortedOrders.find? (fun o => getOrderRole o == Role.target)
  { base := entryOrder.getD emptyCOrder
    orderType := some "Bracket"
    isGroup := true
    groupSize := some relatedOrders.length
    bracketDetails := some
      { entry := entryOrder.map mkEntryDetail
        stopLoss := stopOrder.map mkExitDetail
        takeProfit := targetOrder.map mkExitDetail }
    members := relatedOrders }

/-- A standalone (ungrouped) order:
`{...order, orderType: order.orderType || 'Single', isGroup: false}`. -/
def mkStandalone (o : COrder) : GroupedOrder :=
  { base := o
    orderType := jsOrS o.orderType (some "Single")
    isGroup := false
    members := [o] }

/-- The main grouping loop of `groupRelatedOrders`: iterate over the input in
order, skip orders whose id is already processed, and emit a bracket group or
a standalone group.  Relation discovery always scans the FULL input list. -/
def groupLoop (full : List COrder) : List COrder → List (Option Nat) →
    List GroupedOrder
  | [], _ => []
  | o :: rest, processed =>
    if oid o ∈ processed then
      groupLoop full rest processed
    else
      let relatedOrders := findRelatedOrders o full
      if relatedOrders.length > 1 then
        createBracketOrderGroup relatedOrders ::
          groupLoop full rest (processed ++ relatedOrders.map oid)
      else
        mkStandalone o :: groupLoop full rest (processed ++ [oid o])

/-- `groupRelatedOrders(orders)`: the bracket reconciler's entry point. -/
def groupRelatedOrders (orders : List COrder) : List GroupedOrder :=
  groupLoop orders orders []

/-! ## The freshness cache (`dataCache.js`)

One account's slice of the SQLite store: one row per data kind plus the
polling-state row.  All write methods are no-ops when the cache is not
initialized (`_checkInitialized`), and all read methods return `null` then. -/

inductive Mode where
  | IDLE
  | ACTIVE
  | CRITICAL
  deriving DecidableEq, Repr

/-- A position record; only `netPos` is consulted by the modelled code. -/
structure TPosition where
  netPos : Int
  deriving DecidableEq, Repr

structure PositionsRow where
  positions_data : List TPosition
  last_updated : Nat
  open_positions_count : Nat
  deriving DecidableEq, Repr

structure OrdersRow where
  orders_data : List COrder
  last_updated : Nat
  working_orders_count : Nat
  deriving DecidableEq, Repr

structure PollingRow where
  current_mode : Mode
  last_mode_change : Nat
  mode_change_reason : Option String
  last_poll_timestamp : Nat
  deriving DecidableEq, Repr

/-- One account's slice of the `DataCache`.  The balance row's payload is
irrelevant to every claim, so only its timestamp is kept. -/
structure DataCacheState where
  isInitialized : Bool
  positionsRow : Option PositionsRow := none
  ordersRow : Option OrdersRow := none
  balanceLastUpdated : Option Nat := none
  pollingRow : Option PollingRow := none
  deriving DecidableEq, Repr

/-- The status a cached order is counted by:
`o.status || o.ordStatus` (from `cacheOrders`). -/
def cacheStatusOf (o : COrder) : Option String :=
  jsOrS o.status o.ordStatus

/-- `cacheOrders(accountId, ordersData)`: full replacement of the orders row;
the derived `working_orders_count` counts orders whose status is exactly
`'Working'`. -/
def cacheOrders (s : DataCacheState) (now : Nat) (ordersData : List COrder) :
    DataCacheState :=
  if !s.isInitialized then s
  else
    { s with ordersRow := some {
        orders_data := ordersData
        last_updated := now
        working_orders_count :=
          (ordersData.filter (fun o => cacheStatusOf o == some "Working")).length } }

/-- `cachePositions(accountId, positionsData)`: full replacement of the
positions row; `open_positions_count` counts positions with `netPos !== 0`. -/
def cachePositions (s : DataCacheState) (now : Nat)
    (positionsData : List TPosition) : DataCacheState :=
  if !s.isInitialized then s
  else
    { s with positionsRow := some {
        positions_data := positionsData
        last_updated := now
        open_positions_count :=
          (positionsData.filter (fun p => p.netPos != 0)).length } }

/-- `cacheAccountBalance(accountId, balanceData)`. -/
def cacheAccountBalance (s : DataCacheState) (now : Nat) : DataCacheState :=
  if !s.isInitialized then s
  else { s with balanceLastUpdated := some now }

/-- `getCachedPositions` / `getCachedOrders` / `getPollingState` return `null`
when the cache is uninitialized or the row is absent. -/
def getCachedPositions (s : DataCacheState) : Option PositionsRow :=
  if !s.isInitialized then none else s.positionsRow

def getCachedOrders (s : DataCacheState) : Option OrdersRow :=
  if !s.isInitialized then none else s.ordersRow

def getPollingState (s : DataCacheState) : Option PollingRow :=
  if !s.isInitialized then none else s.pollingRow

/-- `updatePollingState(accountId, mode, reason)`: full replacement of the
polling-state row, stamping both `last_mode_change` and
`last_poll_timestamp` with the current time. -/
def updatePollingState (s : DataCacheState) (now : Nat) (mode : Mode)
    (reason : Option String) : DataCacheState :=
  if !s.isInitialized then s
  else
    { s with pollingRow := some {
        current_mode := mode
        last_mode_change := now
        mode_change_reason := reason
        last_poll_timestamp := now } }

/-- The result record of `determinePollingMode`. -/
structure PollingInfo where
  mode : Mode
  reason : String
  openPositions : Nat
  workingOrders : Nat
  deriving DecidableEq, Repr

/-- `determinePollingMode(accountId)`: the pure mode decision from the cached
derived counts (`positions?.openPositionsCount || 0`,
`orders?.workingOrdersCount || 0`). -/
def determinePollingMode (s : DataCacheState) : PollingInfo :=
  let openPositions :=
    jsOrNat ((getCachedPositions s).map (·.open_positions_count)) 0
  let workingOrders :=
    jsOrNat ((getCachedOrders s).map (·.working_orders_count)) 0
  if openPositions = 0 ∧ workingOrders = 0 then
    { mode := Mode.IDLE, reason := "No trading activity"
      openPositions, workingOrders }
  else if openPositions > 2 ∨ workingOrders > 3 then
    { mode := Mode.CRITICAL
      reason := s!"High activity: {openPositions} positions, {workingOrders} orders"
      openPositions, workingOrders }
  else
    { mode := Mode.ACTIVE
      reason := s!"Active trading: {openPositions} positions, {workingOrders} orders"
      openPositions, workingOrders }

/-! ## The adaptive polling collector (`TradovateDataCollector`)

The collector's per-account behaviour: a successful `pollDataType` writes the
fetched payload into the cache and then runs `checkPollingModeChange`.
JavaScript is single-threaded, so each of these operations is modelled as an
atomic state transformation on the account's cache slice.  Timers are not
modelled (no claim is about the timer intervals themselves); the un-cancelled
`setTimeout` reversions scheduled by `forcePollingMode` are recorded as a
list of deadlines. -/

inductive DataKind where
  | balance
  | positions
  | orders
  deriving DecidableEq, Repr

/-- The condition under which `getOrders` skips the basic-orders cache write:
some already-cached order has truthy `limitPrice` and `orderType`. -/
def hasEnrichedData (s : DataCacheState) : Bool :=
  match getCachedOrders s with
  | none => false
  | some row => row.orders_data.any (fun o => truthyI o.limitPrice && truthyS o.orderType)

/-- The basic field standardization `getOrders` applies before caching:
`status: order.ordStatus || order.status`, `limitPrice: order.price ||
order.limitPrice`, `qty: order.orderQty` (qty and symbol are not consulted
downstream by any modelled operation). -/
def standardizeOrder (o : COrder) : COrder :=
  { o with
    status := jsOrS o.ordStatus o.status
    limitPrice := jsOrI o.price o.limitPrice }

/-- The cache write performed by a successful orders poll (`getOrders`):
standardize, then cache unless enriched data is already present. -/
def ordersFetchWrite (s : DataCacheState) (now : Nat) (raw : List COrder) :
    DataCacheState :=
  let basicOrders := raw.map standardizeOrder
  if hasEnrichedData s then s else cacheOrders s now basicOrders

/-- The payload fetched by one poll. -/
inductive FetchedData where
  | balance
  | positions (data : List TPosition)
  | orders (raw : List COrder)
  deriving DecidableEq, Repr

/-- The cache write performed by a successful `pollDataType`, by data kind. -/
def pollWrite (s : DataCacheState) (now : Nat) : FetchedData → DataCacheState
  | FetchedData.balance => cacheAccountBalance s now
  | FetchedData.positions data => cachePositions s now data
  | FetchedData.orders raw => ordersFetchWrite s now raw

/-- `checkPollingModeChange(accountId)`: re-derive the mode from the cached
counts and store it if it differs from the stored one.  When no polling-state
row exists, the source dereferences `undefined.current_mode` and throws:
modelled as `none`. -/
def checkPollingModeChange (s : DataCacheState) (now : Nat) :
    Option DataCacheState :=
  match getPollingState s with
  | none => none
  | some currentState =>
    let newPollingInfo := determinePollingMode s
    if currentState.current_mode ≠ newPollingInfo.mode then
      some (updatePollingState s now newPollingInfo.mode
        (some newPollingInfo.reason))
    else
      some s

/-- The success path of `pollDataType(accountId, dataType)`: cache the fetched
payload, then run `checkPollingModeChange`.  `none` models the
`TypeError` thrown inside `checkPollingModeChange` when the polling-state row
is missing. -/
def pollDataTypeSuccess (s : DataCacheState) (now : Nat) (fetched : FetchedData) :
    Option DataCacheState :=
  checkPollingModeChange (pollWrite s now fetched) now

/-- `pollDataType` with its own `try/catch`: any exception thrown after the
cache write (in particular the missing-polling-row `TypeError`) is caught and
logged, leaving the written cache state in place. -/
def pollDataTypeCaught (s : DataCacheState) (now : Nat)
    (fetched : FetchedData) : DataCacheState :=
  let written := pollWrite s now fetched
  match checkPollingModeChange written now with
  | some s' => s'
  | none => written

/-- `initializeAccountPolling(accountId)`: poll positions and orders once
(each through `pollDataType`, whose failures are swallowed), then determine
the mode from the now-cached data and store it unconditionally.  Timer
creation is not modelled. -/
def initializeAccountPolling (s : DataCacheState) (now : Nat)
    (posData : List TPosition) (ordersRaw : List COrder) : DataCacheState :=
  let s1 := pollDataTypeCaught s now (FetchedData.positions posData)
  let s2 := pollDataTypeCaught s1 now (FetchedData.orders ordersRaw)
  let pollingInfo := determinePollingMode s2
  updatePollingState s2 now pollingInfo.mode (some pollingInfo.reason)

/-- `restartAccountPolling(accountId)`: clear the account's timers (not
modelled) and re-run `initializeAccountPolling`. -/
def restartAccountPolling (s : DataCacheState) (now : Nat)
    (posData : List TPosition) (ordersRaw : List COrder) : DataCacheState :=
  initializeAccountPolling s now posData ordersRaw

/-- One account's collector state: its cache slice plus the deadlines of all
`setTimeout` auto-reversions scheduled by `forcePollingMode` that have not
yet fired.  The source never cancels these timeouts, so they accumulate. -/
structure CollectorState where
  cache : DataCacheState
  pendingReversions : List Nat := []
  deriving DecidableEq, Repr

/-- `forcePollingMode(accountId, mode, reason, durationMs)`: store the forced
mode, restart polling (which re-polls and re-derives the mode from the cached
counts), and, when `durationMs > 0`, schedule an auto-reversion `setTimeout`
at `now + durationMs` — without cancelling any previously scheduled one.
`posData`/`ordersRaw` are the payloads fetched by the polls that the restart
performs. -/
def forcePollingMode (c : CollectorState) (now : Nat) (mode : Mode)
    (reason : String) (durationMs : Nat) (posData : List TPosition)
    (ordersRaw : List COrder) : CollectorState :=
  let s1 := updatePollingState c.cache now mode (some reason)
  let s2 := restartAccountPolling s1 now posData ordersRaw
  if durationMs > 0 then
    { cache := s2, pendingReversions := c.pendingReversions ++ [now + durationMs] }
  else
    { cache := s2, pendingReversions := c.pendingReversions }

/-- The body of the auto-reversion `setTimeout` scheduled by
`forcePollingMode`, firing at some deadline: re-derive the mode from the
cached counts, store it, and restart polling. -/
def autoRevert (c : CollectorState) (deadline : Nat) (posData : List TPosition)
    (ordersRaw : List COrder) : CollectorState :=
  let pollingInfo := determinePollingMode c.cache
  let s1 := updatePollingState c.cache deadline pollingInfo.mode
    (some "Auto-revert from forced mode")
  { cache := restartAccountPolling s1 deadline posData ordersRaw
    pendingReversions := c.pendingReversions.erase deadline }

/-! ## The rate limiter (`rateLimiter.js`)

The `RateLimiter` class: a FIFO queue drained by a single worker loop
(`processQueue`), penalty state, and statistics.  The running
average-response-time statistic is elided (floating-point; no claim concerns
it).  `resolve`/`reject` callbacks are modelled as the `Outcome` value of an
execution. -/

structure QueueEntry where
  requestId : Nat
  attempts : Nat
  deriving DecidableEq, Repr

structure RLState where
  minRequestInterval : Nat
  defaultRetryDelay : Nat
  maxRetryAttempts : Nat
  requestQueue : List QueueEntry
  lastRequestTime : Nat
  penaltyActive : Bool
  penaltyEndTime : Nat
  currentPenaltyTicket : Option String
  totalRequests : Nat
  penaltiesReceived : Nat
  failedRequests : Nat
  deriving DecidableEq, Repr

/-- The `RateLimiter` constructor: each option falls back through `||` to its
default (`minRequestInterval || 1000`, `defaultRetryDelay || 5000`,
`maxRetryAttempts || 3`). -/
def mkRateLimiter (minRequestInterval defaultRetryDelay maxRetryAttempts :
    Option Nat) : RLState :=
  { minRequestInterval := jsOrNat minRequestInterval 1000
    defaultRetryDelay := jsOrNat defaultRetryDelay 5000
    maxRetryAttempts := jsOrNat maxRetryAttempts 3
    requestQueue := []
    lastRequestTime := 0
    penaltyActive := false
    penaltyEndTime := 0
    currentPenaltyTicket := none
    totalRequests := 0
    penaltiesReceived := 0
    failedRequests := 0 }

/-- The rate limiter as instantiated by `TradovateClient`:
`{minRequestInterval: 1500, defaultRetryDelay: 5000, maxRetryAttempts: 3}`. -/
def tradovateClientRateLimiter : RLState :=
  mkRateLimiter (some 1500) (some 5000) (some 3)

/-- What one executed request resolved to, as seen by the rate limiter:
either a response (possibly carrying the Tradovate penalty markers
`p-ticket` / `p-time` / `p-captcha`) or a thrown transport error. -/
inductive RespKind where
  /-- A response with no penalty markers (resolved to the caller). -/
  | ok
  /-- A response carrying `p-captcha`. -/
  | captcha
  /-- A response carrying both `p-ticket` and `p-time` (in seconds). -/
  | timedPenalty (pTicket : String) (pTime : Nat)
  /-- A response carrying a marker but not both `p-ticket` and `p-time`
  (the source then neither resolves nor rejects the promise). -/
  | penaltyIncomplete
  /-- A thrown error whose `response.status` is 429. -/
  | err429
  /-- Any other thrown error. -/
  | errOther
  deriving DecidableEq, Repr

/-- Terminal (or scheduled) disposition of one execution. -/
inductive Outcome where
  /-- `resolve(response)`. -/
  | resolved
  /-- `reject(new Error('CAPTCHA penalty - API access suspended for 1 hour'))`. -/
  | rejectedCaptcha
  /-- `reject(new Error('Max retry attempts reached ...'))`. -/
  | rejectedMaxRetry
  /-- `reject(error)` — the underlying transport error. -/
  | rejectedError
  /-- The entry was put back at the front of the queue (timed-penalty path). -/
  | requeuedFront
  /-- A `setTimeout` will put `entry` back at the front after `delay` ms
  (429 backoff path). -/
  | retryScheduled (delay : Nat) (entry : QueueEntry)
  /-- The promise was left unsettled (incomplete penalty marker). -/
  | pending
  deriving DecidableEq, Repr

/-- `executeRequest(request)` on the entry `e`, starting at time `tStart` and
observing the response (or thrown error) `resp` at time `tEnd`.  Mirrors the
source: `lastRequestTime` is set to the start time; `updateStats` runs for
every non-throwing response (before the penalty check); penalty handling and
the 429 backoff increment the attempt counter and re-enqueue at the front
only while `attempts < maxRetryAttempts` after the increment. -/
def executeRequest (s : RLState) (e : QueueEntry) (tStart tEnd : Nat)
    (resp : RespKind) : RLState × Outcome :=
  let s := { s with lastRequestTime := tStart }
  match resp with
  | RespKind.ok =>
    ({ s with totalRequests := s.totalRequests + 1 }, Outcome.resolved)
  | RespKind.captcha =>
    ({ s with
        totalRequests := s.totalRequests + 1
        penaltiesReceived := s.penaltiesReceived + 1
        penaltyActive := true
        penaltyEndTime := tEnd + 60 * 60 * 1000
        currentPenaltyTicket := none },
      Outcome.rejectedCaptcha)
  | RespKind.timedPenalty pTicket pTime =>
    let s := { s with
      totalRequests := s.totalRequests + 1
      penaltiesReceived := s.penaltiesReceived + 1
      penaltyActive := true
      penaltyEndTime := tEnd + pTime * 1000
      currentPenaltyTicket := some pTicket }
    let e := { e with attempts := e.attempts + 1 }
    if e.attempts < s.maxRetryAttempts then
      ({ s with requestQueue := e :: s.requestQueue }, Outcome.requeuedFront)
    else
      (s, Outcome.rejectedMaxRetry)
  | RespKind.penaltyIncomplete =>
    ({ s with
        totalRequests := s.totalRequests + 1
        penaltiesReceived := s.penaltiesReceived + 1 },
      Outcome.pending)
  | RespKind.err429 =>
    let s := { s with failedRequests := s.failedRequests + 1 }
    let e := { e with attempts := e.attempts + 1 }
    if e.attempts < s.maxRetryAttempts then
      (s, Outcome.retryScheduled (s.defaultRetryDelay * 2 ^ (e.attempts - 1)) e)
    else
      (s, Outcome.rejectedError)
  | RespKind.errOther =>
    ({ s with failedRequests := s.failedRequests + 1 }, Outcome.rejectedError)

/-- `isHealthy()`: no active penalty and fewer than 10 queued requests. -/
def isHealthy (s : RLState) : Bool :=
  !s.penaltyActive && s.requestQueue.length < 10

/-- The externally observable events of the rate limiter.  `execute` acts on
the queue head (the worker `shift`s it before `executeRequest`); its guard
captures where the worker loop can reach an execution: the penalty sleep has
either never been entered (`penaltyActive = false`) or its window has already
elapsed, and the minimum-interval sleep has completed. -/
inductive RLEvent where
  /-- `queueRequest`: push a fresh entry (attempts 0) at the back. -/
  | enqueue (requestId : Nat)
  /-- The worker wakes from the penalty sleep and clears the penalty flag
  (only reachable once the window has elapsed). -/
  | clearPenalty
  /-- A 429-backoff `setTimeout` fires and unshifts its entry. -/
  | requeueFront (e : QueueEntry)
  /-- The worker executes the queue head, observing `resp` at `tEnd`. -/
  | execute (tEnd : Nat) (resp : RespKind)
  deriving DecidableEq, Repr

/-- Apply one timed event; `none` when the event's guard cannot hold at that
time (the corresponding schedule is impossible in the source). -/
def applyEvent (s : RLState) (t : Nat) : RLEvent → Option RLState
  | RLEvent.enqueue requestId =>
    some { s with requestQueue :=
      s.requestQueue ++ [{ requestId, attempts := 0 }] }
  | RLEvent.clearPenalty =>
    if s.penaltyActive ∧ s.penaltyEndTime ≤ t then
      some { s with penaltyActive := false, currentPenaltyTicket := none }
    else none
  | RLEvent.requeueFront e =>
    some { s with requestQueue := e :: s.requestQueue }
  | RLEvent.execute tEnd resp =>
    if (s.penaltyActive = false ∨ s.penaltyEndTime ≤ t) ∧ t ≤ tEnd ∧
        s.lastRequestTime + s.minRequestInterval ≤ t then
      match s.requestQueue with
      | [] => none
      | e :: rest =>
        some (executeRequest { s with requestQueue := rest } e t tEnd resp).1
    else none

/-- Apply a sequence of timed events. -/
def applyEvents (s : RLState) : List (Nat × RLEvent) → Option RLState
  | [] => some s
  | (t, ev) :: rest =>
    match applyEvent s t ev with
    | none => none
    | some s' => applyEvents s' rest

/-! ### The worker's execution-time discipline (`processQueue`)

Before executing the head entry, the worker sleeps out any active penalty
window (waking at `penaltyEndTime`) and then sleeps out the remainder of the
minimum inter-request interval.  `execTimeAt` computes the instant at which
the execution therefore starts. -/

/-- The instant at which the worker, entering the loop body at `now`,
actually starts executing the head entry. -/
def execTimeAt (lastRequestTime minRequestInterval now : Nat)
    (penaltyActive : Bool) (penaltyEndTime : Nat) : Nat :=
  let now := if penaltyActive && now < penaltyEndTime then penaltyEndTime
    else now
  if now - lastRequestTime < minRequestInterval then
    lastRequestTime + minRequestInterval
  else now

/-- Iterated worker loop: from a last-execution time, the sequence of
execution start times produced by successive loop entries
(`(now, penaltyActive, penaltyEndTime)` per iteration). -/
def execTrace (minRequestInterval : Nat) :
    Nat → List (Nat × Bool × Nat) → List Nat
  | _, [] => []
  | lastRequestTime, (now, pa, pe) :: rest =>
    let t := execTimeAt lastRequestTime minRequestInterval now pa pe
    t :: execTrace minRequestInterval t rest

/-- Validity of the loop-entry times fed to `execTrace`: the host clock is
monotone, so each loop entry happens no earlier than the previous execution
start (`Date.now()` re-read after the previous execution completed). -/
def timesValidB (minRequestInterval : Nat) :
    Nat → List (Nat × Bool × Nat) → Bool
  | _, [] => true
  | lastRequestTime, (now, pa, pe) :: rest =>
    decide (lastRequestTime ≤ now) &&
      timesValidB minRequestInterval
        (execTimeAt lastRequestTime minRequestInterval now pa pe) rest

/-- The worker loop under a mocked response that always carries the same
penalty ticket and wait time: pop the head, execute it, and continue as long
as the entry is re-queued.  Returns the number of executions performed and
the final outcome; `fuel` bounds the iterations (the retry cap makes ≥ 3
enough). -/
def penaltyLoop (pTicket : String) (pTime : Nat) :
    Nat → RLState → Nat × Outcome
  | 0, _ => (0, Outcome.pending)
  | fuel + 1, s =>
    match s.requestQueue with
    | [] => (0, Outcome.pending)
    | e :: rest =>
      let r := executeRequest { s with requestQueue := rest } e 0 0
        (RespKind.timedPenalty pTicket pTime)
      match r.2 with
      | Outcome.requeuedFront =>
        let t := penaltyLoop pTicket pTime fuel r.1
        (t.1 + 1, t.2)
      | out => (1, out)

/-! ## Spec-side definitions (for refinement comparisons) -/

/-- Modelled from the spec's words (§3, glossary): the working-order count as
the spec defines it — "orders whose status is neither filled, cancelled, nor
rejected".  Compared against the count the source actually computes. -/
def specWorkingOrdersCount (ordersData : List COrder) : Nat :=
  (ordersData.filter (fun o =>
    !(cacheStatusOf o == some "Filled" || cacheStatusOf o == some "Canceled" ||
      cacheStatusOf o == some "Rejected"))).length

/-! ## Concrete orders used by counterexamples and witnesses -/

/-- A plain market entry order (id 1). -/
def entryEx : COrder :=
  { id := some 1, action := some "Buy", orderType := some "Market"
    ordStatus := some "Working", orderQty := some 2 }

/-- Its stop leg: stop price set, `parentId` = the entry's id. -/
def stopEx : COrder :=
  { id := some 2, action := some "Sell", orderType := some "Stop"
    stopPrice := some 90, parentId := some 1, ordStatus := some "Working" }

/-- Its target leg: a limit order with `linkedId` = the entry's id and no
stop price. -/
def targetEx : COrder :=
  { id := some 3, action := some "Sell", orderType := some "Limit"
    price := some 110, linkedId := some 1, ordStatus := some "Working" }

/-- A quiescent account's cache slice: initialized, both counts zero, polling
state IDLE. -/
def quiescentCache : DataCacheState :=
  { isInitialized := true
    positionsRow := some { positions_data := [], last_updated := 0, open_positions_count := 0 }
    ordersRow := some { orders_data := [], last_updated := 0, working_orders_count := 0 }
    pollingRow := some { current_mode := Mode.IDLE, last_mode_change := 0
                         mode_change_reason := none, last_poll_timestamp := 0 } }

/-- A cache slice whose stored mode (`ACTIVE`) is stale relative to its
quiescent counts. -/
def c1StaleCache : DataCacheState :=
  { quiescentCache with pollingRow := some {
      current_mode := Mode.ACTIVE, last_mode_change := 0
      mode_change_reason := none, last_poll_timestamp := 0 } }

/-- A previously populated cache state (stale payload and count), used to
exhibit that a new write fully replaces it. -/
def c4PrevState : DataCacheState :=
  { isInitialized := true
    ordersRow := some { orders_data := [entryEx], last_updated := 0, working_orders_count := 7 } }

/-- A written payload: one working order, one filled order. -/
def c4Payload : List COrder :=
  [{ ordStatus := some "Working" }, { status := some "Filled" }]

/-- The bracket group emitted for the `entryEx`/`stopEx`/`targetEx` triple. -/
def c8Group : GroupedOrder :=
  createBracketOrderGroup (findRelatedOrders entryEx [entryEx, stopEx, targetEx])

/-! ### The C3 family: one entry + its stop + its target -/

/-- An entry order of the C3 family: a market order with no link fields. -/
def c3Entry (ie : Nat) (ae : String) (qe : Nat) (pe : Int) (se : String) :
    COrder :=
  { id := some ie, action := some ae, orderType := some "Market"
    ordStatus := some se, orderQty := some qe, price := some pe }

/-- A stop order of the C3 family: stop price set, `parentId` = the entry's
id. -/
def c3Stop (i ie : Nat) (sa : String) (ps : Int) (ss : String) : COrder :=
  { id := some i, action := some sa, orderType := some "Stop"
    stopPrice := some ps, parentId := some ie, ordStatus := some ss }

/-- A target order of the C3 family: a limit order with `linkedId` = the
entry's id and no stop price. -/
def c3Target (i ie : Nat) (ta : String) (pt : Int) (ts : String) : COrder :=
  { id := some i, action := some ta, orderType := some "Limit"
    price := some pt, linkedId := some ie, ordStatus := some ts }

/-! ## C1 — polling mode as a pure function of the cached counts -/

/-- The derived count `determinePollingMode` reads:
`positions?.openPositionsCount || 0`. -/
def cachedOpenPositionsCount (s : DataCacheState) : Nat :=
  jsOrNat ((getCachedPositions s).map (·.open_positions_count)) 0

/-- The derived count `determinePollingMode` reads:
`orders?.workingOrdersCount || 0`. -/
def cachedWorkingOrdersCount (s : DataCacheState) : Nat :=
  jsOrNat ((getCachedOrders s).map (·.working_orders_count)) 0

/-- A freshly configured rate limiter with one queued request. -/
def c2State : RLState :=
  { mkRateLimiter (some 1500) (some 5000) (some 3) with
    requestQueue := [{ requestId := 7, attempts := 0 }] }

/-! ## C4 — the cached working-order count -/

/-- **C4, counterexample.**  The claim says the stored `workingOrdersCount`
counts the orders whose status is neither filled, nor cancelled, nor
rejected.  Writing a single order whose status is `'Suspended'` (accepted,
still eligible to fill) stores a count of `0`, while the claim's predicate
counts `1`: `cacheOrders` in fact counts only status exactly `'Working'`. -/
theorem C4_counterexample :
    ((cacheOrders { isInitialized := true } 5
        [{ ordStatus := some "Suspended" }]).ordersRow.map
      (·.working_orders_count)) = some 0 ∧
    specWorkingOrdersCount [{ ordStatus := some "Suspended" }] = 1 ∧
    (0 : Nat) ≠ 1 := by
  refine ⟨rfl, rfl, by decide⟩

/-- **C4 (amended).**  For every write of an order list to an initialized
cache, the stored row is fully replaced: the payload is the written list, the
timestamp is the write time, and the stored `workingOrdersCount` equals the
number of orders in the written payload whose status (the `status` field,
falling back to `ordStatus`) is exactly `'Working'` — recomputed on that
write, independent of whatever was cached before. -/
theorem C4_working_count_amended (s : DataCacheState) (now : Nat)
    (ordersData : List COrder) (h : s.isInitialized = true) :
    getCachedOrders (cacheOrders s now ordersData) = some
      { orders_data := ordersData
        last_updated := now
        working_orders_count := (ordersData.filter
          (fun o => cacheStatusOf o == some "Working")).length } := by
  simp [cacheOrders, getCachedOrders, h]



/-- **C4, witness.** -/
theorem C4_working_count_amended_witness :
    c4PrevState.isInitialized = true ∧
    getCachedOrders (cacheOrders c4PrevState 5 c4Payload) = some
      { orders_data := c4Payload
        last_updated := 5
        working_orders_count := 1 } := by
  constructor
  · rfl
  · have h := C4_working_count_amended c4PrevState 5 c4Payload rfl
    exact h

/-! ## C7 — `forcePollingMode` -/


/-- **C7 (code bug).**  `forcePollingMode(acct, CRITICAL, "test", 1000)` on a
quiescent account: the claim (and the function's own intent — a "user
override" with an auto-reversion scheduled for later) says the mode is
CRITICAL immediately and until the 1000 ms duration elapses.  In the source,
however, `forcePollingMode` calls `restartAccountPolling`, whose
`initializeAccountPolling` unconditionally re-derives the mode from the
cached counts and stores it — so the stored mode is already back to IDLE when
`forcePollingMode` returns.  Moreover a second override does not cancel the
first override's pending reversion `setTimeout`: both deadlines remain
scheduled. -/
theorem C7_force_mode_bug :
    (((forcePollingMode { cache := quiescentCache } 100 Mode.CRITICAL "test"
        1000 [] []).cache.pollingRow.map (·.current_mode)) = some Mode.IDLE) ∧
    (forcePollingMode
      (forcePollingMode { cache := quiescentCache } 100 Mode.CRITICAL "test" 1000 [] [])
      200 Mode.ACTIVE "test2" 1000 [] []).pendingReversions = [1100, 1200] := by
  exact ⟨rfl, rfl⟩

/-! ## C9 — standalone groups -/

/-- **C9, counterexample.**  The claim says every standalone group is emitted
with `orderType: "Single"`.  In the source the standalone object is
`{...order, orderType: order.orderType || 'Single'}`: an unrelated limit
order keeps its own `orderType` (`'Limit'`), and `'Single'` is only a
fallback for orders with no (or an empty) order type. -/
theorem C9_counterexample :
    (groupRelatedOrders [{ id := some 7, orderType := some "Limit" }]).map
      (·.orderType) = [some "Limit"] ∧
    (some "Limit" : Option String) ≠ some "Single" := by
  exact ⟨rfl, by decide⟩

/-! ## C10 — grouping output as a cover, not a partition -/

/-- **C10, counterexample.**  Orders `A{id 1}`, `B{id 2, parentId 1}`,
`C{id 3, parentId 2}`: seeding from `A` emits the group `{A, B}` and marks
both processed; `C` is still unprocessed and its relation scan — which runs
over the FULL input list, including already-grouped orders — picks up `B`
again, emitting a second group `{C, B}`.  `B` is a member of two distinct
emitted groups, so the output is not a partition of the input. -/
theorem C10_counterexample :
    (groupRelatedOrders
        [{ id := some 1 }, { id := some 2, parentId := some 1 },
          { id := some 3, parentId := some 2 }]).countP
      (fun g => ({ id := some 2, parentId := some 1 } : COrder) ∈ g.members) = 2 ∧
    (2 : Nat) ≠ 1 := by
  exact ⟨by decide, by decide⟩

/-! ## C8 — `bracketDetails` sub-records -/

/-- **C8, counterexample.**  A one-cancels-other pair of two stop-role orders
forms a bracket group with no entry-role member; the claim says the `entry`
sub-record is then `null`, but the source falls back to `sortedOrders[0]`
(`find(...) || sortedOrders[0]`), so `bracketDetails.entry` is non-null and
summarizes a stop-role order. -/
theorem C8_counterexample :
    ((groupRelatedOrders
        [{ id := some 1, action := some "Sell", stopPrice := some 50 },
          { id := some 2, action := some "Buy", stopPrice := some 60, ocoId := some 1 }]).map
      (fun g => (decide ((g.bracketDetails.bind (·.entry)).isSome),
        g.members.countP (fun o => getOrderRole o == Role.entry)))) =
      [(true, 0)] := by
  decide

/-! ## C3 — the bracket round trip -/

/-- **C3, counterexample.**  Two failures of the claim as stated:
(i) quantifying over *every* list of one entry + its stop + its target also
covers orderings in which the entry is not first; seeding from the stop order
finds only the entry directly related (the target is linked to the entry, not
to the stop), so `[stop, target, entry]` yields two groups of size 2, not one
group of size 3.
(ii) even for `[entry, stop, target]`, the stop-loss sub-record carries no
`action` (or quantity) key: only the entry sub-record has them. -/
theorem C3_counterexample :
    (groupRelatedOrders [stopEx, targetEx, entryEx]).length = 2 ∧
    ((groupRelatedOrders [entryEx, stopEx, targetEx]).map
      (fun g => g.bracketDetails.bind (fun d => d.stopLoss.bind (·.action)))) =
      [none] ∧
    stopEx.action = some "Sell" := by
  refine ⟨by decide, rfl, rfl⟩

/-- When no other order in the list is related to `m`, the related set is the
singleton `[m]`. -/
lemma findRelatedOrders_eq_single (m : COrder) (full : List COrder)
    (hnorel : ∀ o ∈ full, oid o ≠ oid m → isRelated m o = false) :
    findRelatedOrders m full = [m] := by
  unfold findRelatedOrders
  have : full.filter (fun o => !(oid o == oid m) && isRelated m o) = [] := by
    rw [List.filter_eq_nil_iff]
    intro o ho
    by_cases h : oid o = oid m
    · simp [h]
    · simp [h, hnorel o ho h]
  rw [this]

/-- The grouping loop on a relation-free suffix emits one standalone group
per order. -/
lemma groupLoop_no_relations (full : List COrder)
    (hnorel : ∀ m ∈ full, ∀ o ∈ full, oid o ≠ oid m → isRelated m o = false) :
    ∀ (rest : List COrder) (processed : List (Option Nat)), rest ⊆ full →
      (rest.map oid).Nodup → (∀ o ∈ rest, oid o ∉ processed) →
      groupLoop full rest processed = rest.map mkStandalone := by
  intro rest
  induction rest with
  | nil => intro processed _ _ _; rfl
  | cons o rest ih =>
    intro processed hsub hnodup hproc
    have hofull : o ∈ full := hsub (List.mem_cons_self o rest)
    have hrel : findRelatedOrders o full = [o] :=
      findRelatedOrders_eq_single o full (fun o' ho' => hnorel o hofull o' ho')
    have hnotproc : oid o ∉ processed := hproc o (List.mem_cons_self o rest)
    have hrest : groupLoop full rest (processed ++ [oid o]) =
        rest.map mkStandalone := by
      apply ih
      · exact fun x hx => hsub (List.mem_cons_of_mem o hx)
      · exact (List.nodup_cons.mp (by simpa using hnodup)).2
      · intro o' ho'
        have h1 : oid o' ∉ processed := hproc o' (List.mem_cons_of_mem o ho')
        have h2 : oid o' ≠ oid o := by
          have : oid o ∉ rest.map oid :=
            (List.nodup_cons.mp (by simpa using hnodup)).1
          intro h
          exact this (h ▸ List.mem_map_of_mem oid ho')
        simp [List.mem_append, h1, h2]
    simp only [groupLoop, if_neg hnotproc, hrel]
    simpa using hrest

/-- **C9 (amended).**  For every order list with pairwise-distinct ids in
which no two distinct orders are related by any of the pairwise relations,
`groupRelatedOrders` returns exactly one standalone group per input order, in
input order, each with `isGroup: false` and with `orderType` kept from the
source order — falling back to `"Single"` only when the source order has no
(or an empty) order type. -/
theorem C9_standalone_amended (orders : List COrder)
    (hnodup : (orders.map oid).Nodup)
    (hnorel : ∀ m ∈ orders, ∀ o ∈ orders, oid o ≠ oid m →
      isRelated m o = false) :
    groupRelatedOrders orders = orders.map mkStandalone := by
  exact groupLoop_no_relations orders hnorel orders [] (fun x hx => hx) hnodup
    (by simp)

/-- **C9, witness.** -/
theorem C9_standalone_amended_witness :
    groupRelatedOrders [{ id := some 4, orderType := some "Market" }, { id := some 5 }] =
      [mkStandalone { id := some 4, orderType := some "Market" },
        mkStandalone { id := some 5 }] := by
  exact C9_standalone_amended
    [{ id := some 4, orderType := some "Market" }, { id := some 5 }]
    (by decide) (by decide)

/-- The related set computed for a seed drawn from the list is a subset of
the list. -/
lemma findRelatedOrders_subset (m : COrder) (full : List COrder)
    (hm : m ∈ full) : findRelatedOrders m full ⊆ full := by
  intro x hx
  rcases List.mem_cons.mp hx with h | h
  · exact h ▸ hm
  · exact List.mem_of_mem_filter h

/-- Every order of the input is a member of at least one emitted group
(coverage direction of C10). -/
lemma groupLoop_covers (full : List COrder) (hnodup : (full.map oid).Nodup) :
    ∀ (rest : List COrder) (processed : List (Option Nat)), rest ⊆ full →
      ∀ o ∈ rest, oid o ∈ processed ∨
        ∃ g ∈ groupLoop full rest processed, o ∈ g.members := by
  intro rest
  induction rest with
  | nil => intro processed _ o ho; cases ho
  | cons h rest ih =>
    intro processed hsub o ho
    have hhfull : h ∈ full := hsub (List.mem_cons_self h rest)
    have hsub' : rest ⊆ full := fun x hx => hsub (List.mem_cons_of_mem h hx)
    by_cases hp : oid h ∈ processed
    · have hloop : groupLoop full (h :: rest) processed =
          groupLoop full rest processed := by
        simp [groupLoop, hp]
      rcases List.mem_cons.mp ho with rfl | ho'
      · exact Or.inl hp
      · rcases ih processed hsub' o ho' with hl | ⟨g, hg, hmem⟩
        · exact Or.inl hl
        · exact Or.inr ⟨g, hloop ▸ hg, hmem⟩
    · -- the head is processed now: one group `g0` is emitted whose members
      -- cover `h`, and the recursion continues with the members' ids added
      set relatedOrders := findRelatedOrders h full with hrel
      have hcases :
          ∃ g0, g0.members ⊆ full ∧ h ∈ g0.members ∧
            groupLoop full (h :: rest) processed =
              g0 :: groupLoop full rest (processed ++ g0.members.map oid) := by
        by_cases hlen : relatedOrders.length > 1
        · refine ⟨createBracketOrderGroup relatedOrders, ?_, ?_, ?_⟩
          · exact findRelatedOrders_subset h full hhfull
          · exact List.mem_cons_self h _
          · simp [groupLoop, hp, ← hrel, hlen, createBracketOrderGroup]
        · refine ⟨mkStandalone h, ?_, ?_, ?_⟩
          · intro x hx
            rcases List.mem_cons.mp hx with rfl | hx'
            · exact hhfull
            · cases hx'
          · exact List.mem_cons_self h []
          · simp [groupLoop, hp, ← hrel, hlen, mkStandalone]
      rcases hcases with ⟨g0, hg0sub, hg0mem, hloop⟩
      rcases List.mem_cons.mp ho with rfl | ho'
      · exact Or.inr ⟨g0, hloop ▸ List.mem_cons_self g0 _, hg0mem⟩
      · rcases ih (processed ++ g0.members.map oid) hsub' o ho' with hl | ⟨g, hg, hmem⟩
        · rcases List.mem_append.mp hl with hl' | hl'
          · exact Or.inl hl'
          · rcases List.mem_map.mp hl' with ⟨m, hm, hmo⟩
            have : m = o := List.inj_on_of_nodup_map hnodup
              (hg0sub hm) (hsub' ho') hmo
            exact Or.inr ⟨g0, hloop ▸ List.mem_cons_self g0 _, this ▸ hm⟩
        · exact Or.inr ⟨g, hloop ▸ List.mem_cons_of_mem g0 hg, hmem⟩

/-- **C10 (amended).**  For every order list with pairwise-distinct ids,
every input order appears in at least one emitted group (as the standalone
order or as a member of a bracket group's related set) — but not necessarily
in exactly one: because relation discovery for a later ungrouped order also
scans orders already emitted in an earlier group, an order can be a member of
two distinct emitted groups, so the output is a cover of the input, not a
partition. -/
theorem C10_coverage_amended (orders : List COrder)
    (hnodup : (orders.map oid).Nodup) :
    ∀ o ∈ orders, ∃ g ∈ groupRelatedOrders orders, o ∈ g.members := by
  intro o ho
  rcases groupLoop_covers orders hnodup orders [] (fun x hx => hx) o ho with
    hl | h
  · cases hl
  · exact h

/-- **C10, witness.** -/
theorem C10_coverage_amended_witness :
    ∃ g ∈ groupRelatedOrders [entryEx, stopEx, targetEx], stopEx ∈ g.members := by
  exact C10_coverage_amended [entryEx, stopEx, targetEx] (by decide) stopEx
    (by decide)

/-- Every emitted group flagged `isGroup` is the bracket built from its own
(nonempty) related set. -/
lemma mem_groupLoop_bracket (full : List COrder) :
    ∀ (rest : List COrder) (processed : List (Option Nat)) (g : GroupedOrder),
      g ∈ groupLoop full rest processed → g.isGroup = true →
      ∃ related, related ≠ [] ∧ g = createBracketOrderGroup related := by
  intro rest
  induction rest with
  | nil => intro processed g hg _; cases hg
  | cons o rest ih =>
    intro processed g hg hbr
    by_cases hp : oid o ∈ processed
    · exact ih processed g (by simpa [groupLoop, hp] using hg) hbr
    · by_cases hlen : (findRelatedOrders o full).length > 1
      · rcases List.mem_cons.mp (by simpa [groupLoop, hp, hlen] using hg) with
          rfl | hg'
        · exact ⟨findRelatedOrders o full, by simp [findRelatedOrders], rfl⟩
        · exact ih _ g hg' hbr
      · rcases List.mem_cons.mp (by simpa [groupLoop, hp, hlen] using hg) with
          rfl | hg'
        · simp [mkStandalone] at hbr
        · exact ih _ g hg' hbr

/-- **C8 (amended).**  For every bracket group emitted by the reconciler:
the stop-loss and take-profit sub-records of `bracketDetails` are `null`
exactly when no member of the group has that inferred role, and otherwise
summarize a member with that role; the `entry` sub-record, however, is never
`null` — it summarizes the entry-role member when one exists and otherwise
falls back to the first member of the role-sorted list — and the group's
primary record (`base`) is that same fallback member, not necessarily an
entry-role member. -/
theorem C8_bracket_details_amended (orders : List COrder) (g : GroupedOrder)
    (hg : g ∈ groupRelatedOrders orders) (hbr : g.isGroup = true) :
    ∃ details, g.bracketDetails = some details ∧
      ((details.stopLoss = none ∧ ∀ o ∈ g.members, getOrderRole o ≠ Role.stop) ∨
        ∃ m ∈ g.members, getOrderRole m = Role.stop ∧
          details.stopLoss = some (mkExitDetail m)) ∧
      ((details.takeProfit = none ∧ ∀ o ∈ g.members, getOrderRole o ≠ Role.target) ∨
        ∃ m ∈ g.members, getOrderRole m = Role.target ∧
          details.takeProfit = some (mkExitDetail m)) ∧
      ∃ m ∈ g.members, details.entry = some (mkEntryDetail m) ∧ g.base = m ∧
        (getOrderRole m = Role.entry ∨
          ∀ o ∈ g.members, getOrderRole o ≠ Role.entry) := by
  obtain ⟨related, hne, rfl⟩ := mem_groupLoop_bracket orders orders [] g hg hbr
  have hperm : (List.insertionSort (fun a b => sortKey a ≤ sortKey b)
      related).Perm related := List.perm_insertionSort _ related
  simp only [createBracketOrderGroup]
  set sorted := List.insertionSort (fun a b => sortKey a ≤ sortKey b) related
    with hsorted
  have hsne : sorted ≠ [] := by
    intro h
    apply hne
    have hlen := hperm.length_eq
    rw [h] at hlen
    exact List.length_eq_zero.mp (by simpa using hlen.symm)
  have hstop :
      ((sorted.find? (fun o => getOrderRole o == Role.stop)).map mkExitDetail
          = none ∧ ∀ o ∈ related, getOrderRole o ≠ Role.stop) ∨
      ∃ m ∈ related, getOrderRole m = Role.stop ∧
        (sorted.find? (fun o => getOrderRole o == Role.stop)).map mkExitDetail
          = some (mkExitDetail m) := by
    rcases hf : sorted.find? (fun o => getOrderRole o == Role.stop) with _ | m
    · refine Or.inl ⟨rfl, fun o ho h => ?_⟩
      have := List.find?_eq_none.mp hf o (hperm.mem_iff.mpr ho)
      simp [h] at this
    · refine Or.inr ⟨m, hperm.mem_iff.mp (List.mem_of_find?_eq_some hf), ?_, rfl⟩
      simpa using List.find?_some hf
  have htarget :
      ((sorted.find? (fun o => getOrderRole o == Role.target)).map mkExitDetail
          = none ∧ ∀ o ∈ related, getOrderRole o ≠ Role.target) ∨
      ∃ m ∈ related, getOrderRole m = Role.target ∧
        (sorted.find? (fun o => getOrderRole o == Role.target)).map mkExitDetail
          = some (mkExitDetail m) := by
    rcases hf : sorted.find? (fun o => getOrderRole o == Role.target) with _ | m
    · refine Or.inl ⟨rfl, fun o ho h => ?_⟩
      have := List.find?_eq_none.mp hf o (hperm.mem_iff.mpr ho)
      simp [h] at this
    · refine Or.inr ⟨m, hperm.mem_iff.mp (List.mem_of_find?_eq_some hf), ?_, rfl⟩
      simpa using List.find?_some hf
  rcases hfe : sorted.find? (fun o => getOrderRole o == Role.entry) with _ | e
  · -- no entry-role member: fall back to the first sorted member
    obtain ⟨hh, tl, hs⟩ : ∃ hh tl, sorted = hh :: tl :=
      List.exists_cons_of_ne_nil hsne
    refine ⟨_, rfl, ?_, ?_, ?_⟩
    · simpa [hfe] using hstop
    · simpa [hfe] using htarget
    · refine ⟨hh, ?_, ?_, ?_, Or.inr fun o ho h => ?_⟩
      · exact hperm.mem_iff.mp (hs ▸ List.mem_cons_self hh tl)
      · simp [hfe, hs]
      · simp [hfe, hs]
      · have := List.find?_eq_none.mp hfe o (hperm.mem_iff.mpr ho)
        simp [h] at this
  · -- an entry-role member exists
    refine ⟨_, rfl, ?_, ?_, ?_⟩
    · simpa [hfe] using hstop
    · simpa [hfe] using htarget
    · refine ⟨e, ?_, ?_, ?_, Or.inl ?_⟩
      · exact hperm.mem_iff.mp (List.mem_of_find?_eq_some hfe)
      · simp [hfe]
      · simp [hfe]
      · simpa using List.find?_some hfe


/-- **C8, witness.** -/
theorem C8_bracket_details_amended_witness :
    ∃ details, c8Group.bracketDetails = some details ∧
      ((details.stopLoss = none ∧ ∀ o ∈ c8Group.members, getOrderRole o ≠ Role.stop) ∨
        ∃ m ∈ c8Group.members, getOrderRole m = Role.stop ∧
          details.stopLoss = some (mkExitDetail m)) ∧
      ((details.takeProfit = none ∧ ∀ o ∈ c8Group.members, getOrderRole o ≠ Role.target) ∨
        ∃ m ∈ c8Group.members, getOrderRole m = Role.target ∧
          details.takeProfit = some (mkExitDetail m)) ∧
      ∃ m ∈ c8Group.members, details.entry = some (mkEntryDetail m) ∧
        c8Group.base = m ∧
        (getOrderRole m = Role.entry ∨
          ∀ o ∈ c8Group.members, getOrderRole o ≠ Role.entry) := by
  exact C8_bracket_details_amended [entryEx, stopEx, targetEx] c8Group
    (by decide) (by decide)


/-- **C3 (amended).**  For every order list of one entry order (market, no
links), one stop order (stop price set, `parentId` = the entry's id) and one
target order (limit, `linkedId` = the entry's id, no stop price) — with
distinct nonzero ids, nonzero prices and nonempty statuses, and with the
entry order listed first — `group(orders)` returns exactly one group of size
3 whose `bracketDetails.entry` carries the action/quantity/price/id/status of
the entry order, and whose `stopLoss` and `takeProfit` sub-records are
non-null and carry the price/id/status and order type (but no action or
quantity) of the stop and target orders. -/
theorem C3_bracket_round_trip_amended
    (ie is_ it : Nat) (ae sa ta : String) (qe : Nat) (pe ps pt : Int)
    (se ss ts : String)
    (hie : ie ≠ 0) (his : is_ ≠ 0) (hit : it ≠ 0)
    (h12 : ie ≠ is_) (h13 : ie ≠ it) (h23 : is_ ≠ it)
    (hpe : pe ≠ 0) (hps : ps ≠ 0) (hpt : pt ≠ 0)
    (hse : se ≠ "") (hss : ss ≠ "") (hts : ts ≠ "") :
    ∀ rest, (rest = [c3Stop is_ ie sa ps ss, c3Target it ie ta pt ts] ∨
        rest = [c3Target it ie ta pt ts, c3Stop is_ ie sa ps ss]) →
      groupRelatedOrders (c3Entry ie ae qe pe se :: rest) =
        [{ base := c3Entry ie ae qe pe se
           orderType := some "Bracket"
           isGroup := true
           groupSize := some 3
           bracketDetails := some
             { entry := some { action := some ae, qty := some qe
                               price := some pe, orderId := some ie
                               status := some se }
               stopLoss := some { price := some ps, orderId := some is_
                                  status := some ss, orderType := some "Stop" }
               takeProfit := some { price := some pt, orderId := some it
                                    status := some ts
                                    orderType := some "Limit" } }
           members := c3Entry ie ae qe pe se :: rest }] := by
  have hRoleE : getOrderRole (c3Entry ie ae qe pe se) = Role.entry := rfl
  have hRoleS : getOrderRole (c3Stop is_ ie sa ps ss) = Role.stop := rfl
  have hRoleT : getOrderRole (c3Target it ie ta pt ts) = Role.target := by
    simp +decide [getOrderRole, c3Target, truthyN, truthyI, jsStrOrEmpty, hie]
  have hOidE : oid (c3Entry ie ae qe pe se) = some ie := by
    simp [oid, c3Entry, jsOrN, truthyN, hie]
  have hOidS : oid (c3Stop is_ ie sa ps ss) = some is_ := by
    simp [oid, c3Stop, jsOrN, truthyN, his]
  have hOidT : oid (c3Target it ie ta pt ts) = some it := by
    simp [oid, c3Target, jsOrN, truthyN, hit]
  have hfindE : List.find? (fun o => getOrderRole o == Role.entry)
      [c3Stop is_ ie sa ps ss, c3Target it ie ta pt ts, c3Entry ie ae qe pe se] =
      some (c3Entry ie ae qe pe se) := by
    simp only [List.find?, hRoleE, hRoleS, hRoleT]
    rfl
  have hfindS : List.find? (fun o => getOrderRole o == Role.stop)
      [c3Stop is_ ie sa ps ss, c3Target it ie ta pt ts, c3Entry ie ae qe pe se] =
      some (c3Stop is_ ie sa ps ss) := by
    simp only [List.find?, hRoleS]
    rfl
  have hfindT : List.find? (fun o => getOrderRole o == Role.target)
      [c3Stop is_ ie sa ps ss, c3Target it ie ta pt ts, c3Entry ie ae qe pe se] =
      some (c3Target it ie ta pt ts) := by
    simp only [List.find?, hRoleS, hRoleT]
    rfl
  have hmkE : mkEntryDetail (c3Entry ie ae qe pe se) =
      { action := some ae, qty := some qe, price := some pe
        orderId := some ie, status := some se } := by
    simp [mkEntryDetail, c3Entry, extractOrderPrice, jsOrI, jsOrN, jsOrS,
      truthyI, truthyN, truthyS, hpe, hse]
  have hmkS : mkExitDetail (c3Stop is_ ie sa ps ss) =
      { price := some ps, orderId := some is_, status := some ss
        orderType := some "Stop" } := by
    simp [mkExitDetail, c3Stop, extractOrderPrice, jsOrI, jsOrN, jsOrS,
      truthyI, truthyN, truthyS, hps, hss]
  have hmkT : mkExitDetail (c3Target it ie ta pt ts) =
      { price := some pt, orderId := some it, status := some ts
        orderType := some "Limit" } := by
    simp [mkExitDetail, c3Target, extractOrderPrice, jsOrI, jsOrN, jsOrS,
      truthyI, truthyN, truthyS, hpt, hts]
  rintro rest (rfl | rfl)
  · -- [entry, stop, target]
    have hrel : findRelatedOrders (c3Entry ie ae qe pe se)
        [c3Entry ie ae qe pe se, c3Stop is_ ie sa ps ss, c3Target it ie ta pt ts] =
        [c3Entry ie ae qe pe se, c3Stop is_ ie sa ps ss, c3Target it ie ta pt ts] := by
      simp [findRelatedOrders, isRelated, oid, c3Entry, c3Stop, c3Target,
        jsOrN, truthyN, hie, his, hit, h12, h13, h12.symm, h13.symm]
    have hsort : List.insertionSort (fun a b => sortKey a ≤ sortKey b)
        [c3Entry ie ae qe pe se, c3Stop is_ ie sa ps ss, c3Target it ie ta pt ts] =
        [c3Stop is_ ie sa ps ss, c3Target it ie ta pt ts, c3Entry ie ae qe pe se] := by
      simp [List.insertionSort, List.orderedInsert, sortKey, hRoleE, hRoleS,
        hRoleT, roleOrderVal, jsOrNat]
    have hcreate : createBracketOrderGroup
        [c3Entry ie ae qe pe se, c3Stop is_ ie sa ps ss, c3Target it ie ta pt ts] =
        { base := c3Entry ie ae qe pe se
          orderType := some "Bracket"
          isGroup := true
          groupSize := some 3
          bracketDetails := some
            { entry := some { action := some ae, qty := some qe
                              price := some pe, orderId := some ie
                              status := some se }
              stopLoss := some { price := some ps, orderId := some is_
                                 status := some ss, orderType := some "Stop" }
              takeProfit := some { price := some pt, orderId := some it
                                   status := some ts, orderType := some "Limit" } }
          members := [c3Entry ie ae qe pe se, c3Stop is_ ie sa ps ss,
            c3Target it ie ta pt ts] } := by
      simp only [createBracketOrderGroup, hsort, hfindE, hfindS, hfindT]
      simp [hmkE, hmkS, hmkT]
    simp only [groupRelatedOrders, groupLoop, hrel]
    simp [hcreate, hOidE, hOidS, hOidT, groupLoop]
  · -- [entry, target, stop]
    have hrel : findRelatedOrders (c3Entry ie ae qe pe se)
        [c3Entry ie ae qe pe se, c3Target it ie ta pt ts, c3Stop is_ ie sa ps ss] =
        [c3Entry ie ae qe pe se, c3Target it ie ta pt ts, c3Stop is_ ie sa ps ss] := by
      simp [findRelatedOrders, isRelated, oid, c3Entry, c3Stop, c3Target,
        jsOrN, truthyN, hie, his, hit, h12, h13, h12.symm, h13.symm]
    have hsort : List.insertionSort (fun a b => sortKey a ≤ sortKey b)
        [c3Entry ie ae qe pe se, c3Target it ie ta pt ts, c3Stop is_ ie sa ps ss] =
        [c3Stop is_ ie sa ps ss, c3Target it ie ta pt ts, c3Entry ie ae qe pe se] := by
      simp [List.insertionSort, List.orderedInsert, sortKey, hRoleE, hRoleS,
        hRoleT, roleOrderVal, jsOrNat]
    have hcreate : createBracketOrderGroup
        [c3Entry ie ae qe pe se, c3Target it ie ta pt ts, c3Stop is_ ie sa ps ss] =
        { base := c3Entry ie ae qe pe se
          orderType := some "Bracket"
          isGroup := true
          groupSize := some 3
          bracketDetails := some
            { entry := some { action := some ae, qty := some qe
                              price := some pe, orderId := some ie
                              status := some se }
              stopLoss := some { price := some ps, orderId := some is_
                                 status := some ss, orderType := some "Stop" }
              takeProfit := some { price := some pt, orderId := some it
                                   status := some ts, orderType := some "Limit" } }
          members := [c3Entry ie ae qe pe se, c3Target it ie ta pt ts,
            c3Stop is_ ie sa ps ss] } := by
      simp only [createBracketOrderGroup, hsort, hfindE, hfindS, hfindT]
      simp [hmkE, hmkS, hmkT]
    simp only [groupRelatedOrders, groupLoop, hrel]
    simp [hcreate, hOidE, hOidS, hOidT, groupLoop]

/-- **C3, witness.** -/
theorem C3_bracket_round_trip_amended_witness :
    groupRelatedOrders
      [c3Entry 1 "Buy" 2 100 "Working", c3Stop 2 1 "Sell" 90 "Working",
        c3Target 3 1 "Sell" 110 "Working"] =
      [{ base := c3Entry 1 "Buy" 2 100 "Working"
         orderType := some "Bracket"
         isGroup := true
         groupSize := some 3
         bracketDetails := some
           { entry := some { action := some "Buy", qty := some 2
                             price := some 100, orderId := some 1
                             status := some "Working" }
             stopLoss := some { price := some 90, orderId := some 2
                                status := some "Working", orderType := some "Stop" }
             takeProfit := some { price := some 110, orderId := some 3
                                  status := some "Working"
                                  orderType := some "Limit" } }
         members := [c3Entry 1 "Buy" 2 100 "Working", c3Stop 2 1 "Sell" 90 "Working",
           c3Target 3 1 "Sell" 110 "Working"] }] := by
  exact C3_bracket_round_trip_amended 1 2 3 "Buy" "Sell" "Sell" 2 100 90 110
    "Working" "Working" "Working" (by decide) (by decide) (by decide)
    (by decide) (by decide) (by decide) (by decide) (by decide) (by decide)
    (by decide) (by decide) (by decide)
    [c3Stop 2 1 "Sell" 90 "Working", c3Target 3 1 "Sell" 110 "Working"]
    (Or.inl rfl)


/-- The mode component of `determinePollingMode` as the three-way decision of
the spec's table. -/
lemma determinePollingMode_mode (s : DataCacheState) :
    (determinePollingMode s).mode =
      if cachedOpenPositionsCount s = 0 ∧ cachedWorkingOrdersCount s = 0 then
        Mode.IDLE
      else if cachedOpenPositionsCount s > 2 ∨ cachedWorkingOrdersCount s > 3 then
        Mode.CRITICAL
      else Mode.ACTIVE := by
  simp only [determinePollingMode, cachedOpenPositionsCount,
    cachedWorkingOrdersCount]
  split_ifs <;> rfl

/-- `updatePollingState` touches only the polling-state row, so the derived
mode decision is unchanged by it. -/
lemma determinePollingMode_updatePollingState (s : DataCacheState) (now : Nat)
    (mode : Mode) (reason : Option String) :
    determinePollingMode (updatePollingState s now mode reason) =
      determinePollingMode s := by
  unfold updatePollingState
  by_cases h : s.isInitialized <;>
    simp [h, determinePollingMode, getCachedPositions, getCachedOrders]

/-- After a successful `checkPollingModeChange`, the stored mode equals the
derived mode of the resulting cache state. -/
lemma checkPollingModeChange_post (w : DataCacheState) (now : Nat)
    (s' : DataCacheState) (h : checkPollingModeChange w now = some s') :
    ∃ row, getPollingState s' = some row ∧
      row.current_mode = (determinePollingMode s').mode := by
  unfold checkPollingModeChange at h
  rcases hrow : getPollingState w with _ | row
  · rw [hrow] at h; cases h
  · rw [hrow] at h
    dsimp only at h
    have hinit : w.isInitialized = true := by
      by_contra hini
      simp [getPollingState, hini] at hrow
    by_cases hmode : row.current_mode ≠ (determinePollingMode w).mode
    · rw [if_pos hmode] at h
      obtain rfl := Option.some.inj h
      refine ⟨{ current_mode := (determinePollingMode w).mode
                last_mode_change := now
                mode_change_reason := some (determinePollingMode w).reason
                last_poll_timestamp := now }, ?_, ?_⟩
      · simp [getPollingState, updatePollingState, hinit]
      · simp [determinePollingMode_updatePollingState]
    · rw [if_neg hmode] at h
      obtain rfl := Option.some.inj h
      exact ⟨row, hrow, not_not.mp hmode⟩

/-- **C1.**  (i) The polling mode computed from the cache is a pure function
of the latest cached `openPositionsCount` and `workingOrdersCount`;
(ii) it follows the claimed table — IDLE when both counts are 0, CRITICAL
when `openPositions > 2` or `workingOrders > 3`, ACTIVE otherwise; and
(iii) after any successful poll (cache write followed by
`checkPollingModeChange`), the stored `current_mode` equals this function of
the account's latest cached counts.  The code maintains (iii)
unconditionally, which implies the claim's weaker "unless a manual override's
duration has not yet elapsed" form. -/
theorem C1_mode_pure_function_and_after_poll :
    (∀ s1 s2 : DataCacheState,
      cachedOpenPositionsCount s1 = cachedOpenPositionsCount s2 →
      cachedWorkingOrdersCount s1 = cachedWorkingOrdersCount s2 →
      (determinePollingMode s1).mode = (determinePollingMode s2).mode) ∧
    (∀ s : DataCacheState,
      ((determinePollingMode s).mode = Mode.IDLE ↔
        cachedOpenPositionsCount s = 0 ∧ cachedWorkingOrdersCount s = 0) ∧
      ((determinePollingMode s).mode = Mode.CRITICAL ↔
        (cachedOpenPositionsCount s > 2 ∨ cachedWorkingOrdersCount s > 3)) ∧
      ((determinePollingMode s).mode = Mode.ACTIVE ↔
        (¬(cachedOpenPositionsCount s = 0 ∧ cachedWorkingOrdersCount s = 0) ∧
          ¬(cachedOpenPositionsCount s > 2 ∨
            cachedWorkingOrdersCount s > 3)))) ∧
    (∀ (s : DataCacheState) (now : Nat) (fetched : FetchedData)
      (s' : DataCacheState), pollDataTypeSuccess s now fetched = some s' →
      ∃ row, getPollingState s' = some row ∧
        row.current_mode = (determinePollingMode s').mode) := by
  refine ⟨?_, ?_, ?_⟩
  · intro s1 s2 hop hwo
    rw [determinePollingMode_mode, determinePollingMode_mode, hop, hwo]
  · intro s
    rw [determinePollingMode_mode]
    split_ifs with h1 h2
    · refine ⟨?_, ?_, ?_⟩ <;> simp <;> omega
    · refine ⟨?_, ?_, ?_⟩ <;> simp <;> omega
    · refine ⟨?_, ?_, ?_⟩ <;> simp <;> omega
  · intro s now fetched s' h
    exact checkPollingModeChange_post _ now s' h


/-- **C1, witness.**  A successful positions poll on a cache whose stored
mode is stale (`ACTIVE` with no activity): afterwards the stored mode is the
derived `IDLE`. -/
theorem C1_mode_pure_function_and_after_poll_witness :
    ∃ row, getPollingState (updatePollingState (cachePositions c1StaleCache 7 [])
        7 Mode.IDLE (some "No trading activity")) = some row ∧
      row.current_mode = (determinePollingMode
        (updatePollingState (cachePositions c1StaleCache 7 [])
          7 Mode.IDLE (some "No trading activity"))).mode := by
  exact C1_mode_pure_function_and_after_poll.2.2 c1StaleCache
    7 (FetchedData.positions []) _ rfl

/-! ## C2 — penalty / 429 retries capped at 3 attempts -/

/-- **C2.**  (i) A response carrying a penalty ticket and wait time
re-enqueues the same request at the FRONT of the queue with its attempt
counter incremented, as long as the incremented counter is below
`maxRetryAttempts`; at or above the cap the request is rejected with the
terminal max-retry error and not re-queued.  (ii) A 429 transport error
schedules the same front re-enqueue after an exponential backoff of
`defaultRetryDelay × 2^(attempts−1)` (with the post-increment counter), under
the same cap; at the cap it is rejected.  (iii) With the default cap of 3, a
request that is penalized on every execution is executed exactly 3 times and
then rejected — never retried a fourth time. -/
theorem C2_retry_cap :
    (∀ (s : RLState) (e : QueueEntry) (tS tE : Nat) (pTicket : String)
      (pTime : Nat),
      (e.attempts + 1 < s.maxRetryAttempts →
        (executeRequest s e tS tE (RespKind.timedPenalty pTicket pTime)).2 =
            Outcome.requeuedFront ∧
          (executeRequest s e tS tE
              (RespKind.timedPenalty pTicket pTime)).1.requestQueue =
            { e with attempts := e.attempts + 1 } :: s.requestQueue) ∧
      (s.maxRetryAttempts ≤ e.attempts + 1 →
        (executeRequest s e tS tE (RespKind.timedPenalty pTicket pTime)).2 =
            Outcome.rejectedMaxRetry ∧
          (executeRequest s e tS tE
              (RespKind.timedPenalty pTicket pTime)).1.requestQueue =
            s.requestQueue)) ∧
    (∀ (s : RLState) (e : QueueEntry) (tS tE : Nat),
      (e.attempts + 1 < s.maxRetryAttempts →
        (executeRequest s e tS tE RespKind.err429).2 =
          Outcome.retryScheduled (s.defaultRetryDelay * 2 ^ e.attempts)
            { e with attempts := e.attempts + 1 }) ∧
      (s.maxRetryAttempts ≤ e.attempts + 1 →
        (executeRequest s e tS tE RespKind.err429).2 =
          Outcome.rejectedError ∧
          (executeRequest s e tS tE RespKind.err429).1.requestQueue =
            s.requestQueue)) ∧
    (∀ (s : RLState) (rid : Nat) (pTicket : String) (pTime fuel : Nat),
      s.maxRetryAttempts = 3 →
      s.requestQueue = [{ requestId := rid, attempts := 0 }] → 3 ≤ fuel →
      penaltyLoop pTicket pTime fuel s = (3, Outcome.rejectedMaxRetry)) := by
  refine ⟨?_, ?_, ?_⟩
  · intro s e tS tE pTicket pTime
    constructor
    · intro h
      constructor <;> simp [executeRequest, h]
    · intro h
      constructor <;> simp [executeRequest, Nat.not_lt.mpr h]
  · intro s e tS tE
    refine ⟨fun h => ?_, fun h => ?_⟩
    · simp [executeRequest, h]
    · constructor <;> simp [executeRequest, Nat.not_lt.mpr h]
  · intro s rid pTicket pTime fuel hmax hq hfuel
    obtain ⟨k, rfl⟩ : ∃ k, fuel = k + 3 := ⟨fuel - 3, by omega⟩
    show penaltyLoop pTicket pTime (k + 2 + 1) s = _
    simp only [penaltyLoop, hq]
    simp [executeRequest, hmax, penaltyLoop]


/-- **C2, witness.** -/
theorem C2_retry_cap_witness :
    c2State.maxRetryAttempts = 3 ∧
    c2State.requestQueue = [{ requestId := 7, attempts := 0 }] ∧
    (3 : Nat) ≤ 5 ∧
    penaltyLoop "X" 5 5 c2State = (3, Outcome.rejectedMaxRetry) := by
  refine ⟨by decide, by decide, by decide, ?_⟩
  exact C2_retry_cap.2.2 c2State 7 "X" 5 5 (by decide) (by decide) (by decide)

/-! ## C5 — CAPTCHA-class penalties -/

/-- While the penalty window is still open (every event strictly before
`penaltyEndTime`), no event of the rate limiter can clear the penalty flag:
the worker's clearing step and any execution are guarded by the window having
elapsed. -/
lemma applyEvents_penalty_invariant (E : Nat) :
    ∀ (evs : List (Nat × RLEvent)) (s s'' : RLState),
      s.penaltyActive = true → s.penaltyEndTime = E →
      applyEvents s evs = some s'' → (∀ p ∈ evs, p.1 < E) →
      s''.penaltyActive = true ∧ s''.penaltyEndTime = E := by
  intro evs
  induction evs with
  | nil =>
    intro s s'' ha he h _
    obtain rfl := Option.some.inj h
    exact ⟨ha, he⟩
  | cons p rest ih =>
    intro s s'' ha he h htimes
    obtain ⟨t, ev⟩ := p
    have ht : t < E := htimes (t, ev) (List.mem_cons_self _ _)
    unfold applyEvents at h
    rcases hev : applyEvent s t ev with _ | s1
    · rw [hev] at h; cases h
    · rw [hev] at h
      have h1 : s1.penaltyActive = true ∧ s1.penaltyEndTime = E := by
        cases ev with
        | enqueue rid =>
          obtain rfl := Option.some.inj hev.symm
          exact ⟨ha, he⟩
        | clearPenalty =>
          exfalso
          rw [applyEvent, if_neg (by simp [he, Nat.not_le.mpr ht])] at hev
          cases hev
        | requeueFront e' =>
          obtain rfl := Option.some.inj hev.symm
          exact ⟨ha, he⟩
        | execute tEnd resp =>
          exfalso
          rw [applyEvent,
            if_neg (by simp [ha, he, Nat.not_le.mpr ht])] at hev
          cases hev
      exact ih s1 s'' h1.1 h1.2 h
        (fun q hq => htimes q (List.mem_cons_of_mem _ hq))

/-- **C5.**  A response carrying the CAPTCHA marker makes the gate reject
that request immediately (it is not re-queued), sets a penalty window of
exactly 3,600,000 ms after the response, and — through any sequence of
rate-limiter events occurring strictly before the window's end — every
query of the health predicate observes the gate as unhealthy until the window
elapses.  (The manual `resetPenalties`/`clearQueue` recovery helpers are
outside the gate's autonomous behaviour and not part of the event model.) -/
theorem C5_captcha_penalty (s : RLState) (e : QueueEntry) (tS tE : Nat) :
    (executeRequest s e tS tE RespKind.captcha).2 = Outcome.rejectedCaptcha ∧
    (executeRequest s e tS tE RespKind.captcha).1.requestQueue =
      s.requestQueue ∧
    (executeRequest s e tS tE RespKind.captcha).1.penaltyActive = true ∧
    (executeRequest s e tS tE RespKind.captcha).1.penaltyEndTime =
      tE + 3600000 ∧
    ∀ (evs : List (Nat × RLEvent)) (s'' : RLState),
      applyEvents (executeRequest s e tS tE RespKind.captcha).1 evs =
        some s'' →
      (∀ p ∈ evs, p.1 < tE + 3600000) → isHealthy s'' = false := by
  refine ⟨rfl, rfl, rfl, by simp [executeRequest], ?_⟩
  intro evs s'' h htimes
  have hinv := applyEvents_penalty_invariant (tE + 3600000) evs
    (executeRequest s e tS tE RespKind.captcha).1 s'' rfl
    (by simp [executeRequest]) h htimes
  simp [isHealthy, hinv.1]

/-- **C5, witness.** -/
theorem C5_captcha_penalty_witness :
    ∃ s'', applyEvents
        (executeRequest tradovateClientRateLimiter
          { requestId := 1, attempts := 0 } 10 20 RespKind.captcha).1
        [(100, RLEvent.enqueue 2)] = some s'' ∧
      isHealthy s'' = false := by
  refine ⟨_, rfl, ?_⟩
  exact (C5_captcha_penalty tradovateClientRateLimiter
      { requestId := 1, attempts := 0 } 10 20).2.2.2.2
    [(100, RLEvent.enqueue 2)] _ rfl (by decide)

/-! ## C6 — minimum inter-request spacing -/

/-- **C6, counterexample.**  The claim says the minimum spacing defaults to
1.5 s; the `RateLimiter` constructor's default is 1,000 ms (the 1,500 ms
value is passed explicitly by the Tradovate client, not a default). -/
theorem C6_counterexample :
    (mkRateLimiter none none none).minRequestInterval = 1000 ∧
    (1000 : Nat) ≠ 1500 := by
  exact ⟨rfl, by decide⟩

/-- **C6 (amended).**  The gate's worker enforces a minimum spacing since the
last executed request — defaulting to 1 s in the `RateLimiter` constructor
and configured to 1.5 s by the Tradovate client — sleeping out any open
penalty window and then the remainder of the interval, so that (with a
monotone host clock) every execution starts at least `minRequestInterval`
after the previous one: consecutive execution start times are at least the
configured minimum interval apart. -/
theorem C6_min_spacing_amended :
    (mkRateLimiter none none none).minRequestInterval = 1000 ∧
    tradovateClientRateLimiter.minRequestInterval = 1500 ∧
    (∀ (last minI now : Nat) (pa : Bool) (pe : Nat), last ≤ now →
      last + minI ≤ execTimeAt last minI now pa pe) ∧
    (∀ (minI last : Nat) (iters : List (Nat × Bool × Nat)),
      timesValidB minI last iters = true →
      List.Chain (fun a b => a + minI ≤ b) last (execTrace minI last iters)) := by
  have hgap : ∀ (last minI now : Nat) (pa : Bool) (pe : Nat), last ≤ now →
      last + minI ≤ execTimeAt last minI now pa pe := by
    intro last minI now pa pe hmon
    unfold execTimeAt
    by_cases hp : (pa && decide (now < pe)) = true
    · have hnowpe : now < pe := by
        simpa using (Bool.and_eq_true _ _ |>.mp hp).2
      simp only [hp, if_true]
      split_ifs with h2 <;> omega
    · simp only [Bool.not_eq_true] at hp
      simp only [hp, Bool.false_eq_true, if_false]
      split_ifs with h2 <;> omega
  refine ⟨rfl, rfl, hgap, ?_⟩
  intro minI last iters
  induction iters generalizing last with
  | nil => intro _; exact List.Chain.nil
  | cons p rest ih =>
    obtain ⟨now, pa, pe⟩ := p
    intro hvalid
    simp only [timesValidB, Bool.and_eq_true, decide_eq_true_eq] at hvalid
    exact List.Chain.cons (hgap last minI now pa pe hvalid.1)
      (ih _ hvalid.2)

/-- **C6, witness.** -/
theorem C6_min_spacing_amended_witness :
    (0 : Nat) ≤ 10 ∧
    timesValidB 1500 0 [(10, false, 0), (2000, true, 5000)] = true ∧
    List.Chain (fun a b => a + 1500 ≤ b) 0
      (execTrace 1500 0 [(10, false, 0), (2000, true, 5000)]) := by
  refine ⟨by decide, by decide, ?_⟩
  exact C6_min_spacing_amended.2.2.2 1500 0 [(10, false, 0), (2000, true, 5000)]
    (by decide)

end Slingshot
